import Mathlib

/-!
# caddy-geoip: the request decision pipeline

A shallow embedding of `caddyfile.go` (package `geoip`): client address
extraction (`getClientIP`), the geo lookup with its fallback records
(`fetchGeoipData`, `lookupLocation`), the allow/block list evaluation
(`ServeHTTP`) and the part of `UnmarshalCaddyfile` that fills the lists.

Go strings are Lean strings, processed as lists of characters.  A `net.IP`
is the list of its bytes; the nil address is the empty list.  The functions
of Go's standard library that the handler calls (`net.ParseIP`,
`net.IP.String`, `net.IP.IsLoopback`, `net.SplitHostPort`, `strings.Split`,
`strconv.ParseBool`, `http.Header.Get`) are embedded from the library's code.
-/

set_option autoImplicit false

namespace CaddyGeoip

/-! ## Go standard library: `net.IP` -/

/-- A `net.IP`: a byte slice; `[]` stands for the nil address. -/
abbrev IP := List Nat

/-- Type `net.AddrError`: the only error type `net.SplitHostPort` returns. -/
structure AddrError where
  Err : String
  Addr : String
  deriving DecidableEq, Repr

/-- The Go `error` values that `getClientIP` can return. -/
inductive GoError where
  /-- A `*net.AddrError`, passed on from `net.SplitHostPort`. -/
  | addr (e : AddrError)
  /-- The value of `errors.New`. -/
  | errorString (s : String)
  deriving DecidableEq, Repr

deriving instance DecidableEq for Except

def IPv4len : Nat := 4

def IPv6len : Nat := 16

/-- The first twelve bytes of an IPv4 address in 16-byte form. -/
def v4InV6Lead : List Nat := [0, 0, 0, 0, 0, 0, 0, 0, 0, 0, 0xff, 0xff]

/-- The address `::1`. -/
def IPv6loopback : IP := [0, 0, 0, 0, 0, 0, 0, 0, 0, 0, 0, 0, 0, 0, 0, 1]

def isZeros (p : List Nat) : Bool := p.all (fun b => b == 0)

/-- Method `IP.To4`: the 4-byte form of an IPv4 address, nil otherwise. -/
def IP.To4 (ip : IP) : IP :=
  if ip.length = IPv4len then ip
  else if ip.length = IPv6len ∧ isZeros (ip.take 10) = true ∧ ip.getD 10 0 = 0xff ∧
      ip.getD 11 0 = 0xff then ip.drop 12
  else []

/-- Method `IP.Equal`. -/
def IP.Equal (ip x : IP) : Bool :=
  if ip.length = x.length then decide (ip = x)
  else if ip.length = IPv4len ∧ x.length = IPv6len then
    decide (x.take 12 = v4InV6Lead) && decide (ip = x.drop 12)
  else if ip.length = IPv6len ∧ x.length = IPv4len then
    decide (ip.take 12 = v4InV6Lead) && decide (ip.drop 12 = x)
  else false

/-- Method `IP.IsLoopback`. -/
def IP.IsLoopback (ip : IP) : Bool :=
  let ip4 := ip.To4
  if ip4 ≠ [] then ip4.getD 0 0 == 127
  else ip.Equal IPv6loopback

/-- Decimal digits of a number (`strconv.Itoa` on a byte). -/
def itoa (n : Nat) : List Char := Nat.toDigits 10 n

/-- Lower-case hexadecimal digits without leading zeros (`appendHex`). -/
def appendHex (n : Nat) : List Char := Nat.toDigits 16 n

/-- Two lower-case hexadecimal digits of each byte (`hexString`). -/
def hexString (b : List Nat) : List Char :=
  b.flatMap (fun x => [Nat.digitChar (x / 16 % 16), Nat.digitChar (x % 16)])

/-- Dotted decimal form of four bytes (`netip.Addr.string4`). -/
def string4 (p : List Nat) : List Char :=
  itoa (p.getD 0 0) ++ '.' :: itoa (p.getD 1 0) ++ '.' :: itoa (p.getD 2 0) ++
    '.' :: itoa (p.getD 3 0)

/-- The eight 16-bit groups of a 16-byte address (`v6u16`). -/
def v6groups : List Nat → List Nat
  | hi :: lo :: rest => (hi * 256 + lo) :: v6groups rest
  | _ => []

/-- Number of zero groups from position `i` on: the inner loop of `appendTo6`. -/
def zeroRun (groups : List Nat) (i : Nat) : Nat :=
  ((groups.drop i).takeWhile (fun x => x == 0)).length

/-- The first loop of `appendTo6`: the first longest run of at least two zero
groups, as `(zeroStart, zeroEnd)`; `(255, 255)` when there is none. -/
def zeroSpan (groups : List Nat) : Nat × Nat :=
  (List.range 8).foldl
    (fun (z : Nat × Nat) i =>
      let j := i + zeroRun groups i
      let l := j - i
      if l ≥ 2 ∧ l > z.2 - z.1 then (i, j) else z)
    (255, 255)

/-- The second loop of `appendTo6`, from group `i` on. -/
def emit6 (groups : List Nat) (zeroStart zeroEnd : Nat) : Nat → Nat → List Char → List Char
  | 0, _, ret => ret
  | fuel + 1, i, ret =>
    if i < 8 then
      if i = zeroStart then
        let ret := ret ++ [':', ':']
        let i := zeroEnd
        if i ≥ 8 then ret
        else emit6 groups zeroStart zeroEnd fuel (i + 1) (ret ++ appendHex (groups.getD i 0))
      else
        let ret := if i > 0 then ret ++ [':'] else ret
        emit6 groups zeroStart zeroEnd fuel (i + 1) (ret ++ appendHex (groups.getD i 0))
    else ret

/-- Textual form of a 16-byte address that is not IPv4 (`netip.Addr.string6`). -/
def string6 (ip : List Nat) : List Char :=
  let groups := v6groups ip
  let z := zeroSpan groups
  emit6 groups z.1 z.2 9 0 []

/-- Method `IP.String`: `<nil>` for the nil address, dotted decimal for IPv4
(in 4-byte or 16-byte form), the RFC 5952 form for IPv6, and `?` followed by
the bytes in hexadecimal for any other length. -/
def IPString (ip : IP) : String :=
  if ip.length = 0 then "<nil>"
  else if ip.length ≠ IPv4len ∧ ip.length ≠ IPv6len then String.mk ('?' :: hexString ip)
  else
    let p4 := ip.To4
    if p4.length = IPv4len then String.mk (string4 p4)
    else String.mk (string6 ip)

/-! ## Go standard library: `net.ParseIP` -/

def isDigit (c : Char) : Bool := decide ('0'.toNat ≤ c.toNat) && decide (c.toNat ≤ '9'.toNat)

/-- The loop of `parseIPv4Fields`.  `first` says the index is 0, `prevDot` that
the previous character is a dot; the result is the four octets, or `none` for
any of the parse errors. -/
def parseIPv4Loop : List Char → Bool → Bool → Nat → Nat → Nat → List Nat → Option (List Nat)
  | [], _, _, val, pos, _, fields =>
    if pos < 3 then none else some (fields.set 3 val)
  | c :: rest, first, prevDot, val, pos, digLen, fields =>
    if isDigit c then
      if digLen = 1 ∧ val = 0 then none
      else
        let val := val * 10 + (c.toNat - '0'.toNat)
        if val > 255 then none
        else parseIPv4Loop rest false false val pos (digLen + 1) fields
    else if c = '.' then
      if first ∨ rest = [] ∨ prevDot then none
      else if pos = 3 then none
      else parseIPv4Loop rest false true 0 (pos + 1) 0 (fields.set pos val)
    else none

/-- Function `parseIPv4Fields` on the whole of `s`. -/
def parseIPv4Fields (s : List Char) : Option (List Nat) :=
  parseIPv4Loop s true false 0 0 0 [0, 0, 0, 0]

/-- Value of a hexadecimal digit, `none` for any other character. -/
def hexVal (c : Char) : Option Nat :=
  if '0'.toNat ≤ c.toNat ∧ c.toNat ≤ '9'.toNat then some (c.toNat - '0'.toNat)
  else if 'a'.toNat ≤ c.toNat ∧ c.toNat ≤ 'f'.toNat then some (c.toNat - 'a'.toNat + 10)
  else if 'A'.toNat ≤ c.toNat ∧ c.toNat ≤ 'F'.toNat then some (c.toNat - 'A'.toNat + 10)
  else none

/-- The hexadecimal group scan of `parseIPv6`: `(off, acc, s[off:])`, or `none`
when a group has more than four digits or overflows 16 bits. -/
def hexGroup : List Char → Nat → Nat → Option (Nat × Nat × List Char)
  | [], off, acc => some (off, acc, [])
  | c :: rest, off, acc =>
    match hexVal c with
    | none => some (off, acc, c :: rest)
    | some d =>
      let acc := (acc * 16 + d) % 2 ^ 32
      if off > 3 then none
      else if acc > 65535 then none
      else hexGroup rest (off + 1) acc

/-- The state of `parseIPv6` when its main loop is left: the unread text, the
write position, the bytes and the position of the ellipsis (`none` for -1). -/
structure V6State where
  s : List Char
  i : Nat
  ip : List Nat
  ellipsis : Option Nat
  deriving DecidableEq, Repr

/-- The main loop of `parseIPv6` (`for i < 16`); each round writes two bytes, so
nine rounds of fuel are never used up. -/
def parseIPv6Loop : Nat → V6State → Option V6State
  | 0, _ => none
  | fuel + 1, st =>
    if st.i < 16 then
      match hexGroup st.s 0 0 with
      | none => none
      | some (off, acc, rest) =>
        if off = 0 then none
        else if rest.head? = some '.' then
          if st.ellipsis = none ∧ st.i ≠ 12 then none
          else if st.i + 4 > 16 then none
          else
            match parseIPv4Fields st.s with
            | none => none
            | some f =>
              some { st with
                s := [],
                i := st.i + 4,
                ip := (((st.ip.set st.i (f.getD 0 0)).set (st.i + 1) (f.getD 1 0)).set
                  (st.i + 2) (f.getD 2 0)).set (st.i + 3) (f.getD 3 0) }
        else
          let ip := (st.ip.set st.i (acc / 256 % 256)).set (st.i + 1) (acc % 256)
          let i := st.i + 2
          match rest with
          | [] => some { st with s := [], i := i, ip := ip }
          | c :: rest1 =>
            if c ≠ ':' then none
            else
              match rest1 with
              | [] => none
              | c1 :: rest2 =>
                if c1 = ':' then
                  if st.ellipsis ≠ none then none
                  else
                    match rest2 with
                    | [] => some { s := [], i := i, ip := ip, ellipsis := some i }
                    | _ => parseIPv6Loop fuel { s := rest2, i := i, ip := ip, ellipsis := some i }
                else parseIPv6Loop fuel { st with s := c1 :: rest2, i := i, ip := ip }
    else some st

/-- The ellipsis expansion of `parseIPv6`: the bytes from `ellipsis` up to `i`
move to the end and the gap is cleared. -/
def expandEllipsis (ip : List Nat) (i ellipsis : Nat) : List Nat :=
  ip.take ellipsis ++ List.replicate (16 - i) 0 ++ (ip.take i).drop ellipsis

/-- Function `netip.parseIPv6`: the sixteen bytes and the zone. -/
def parseIPv6 (input : List Char) : Option (List Nat × List Char) :=
  let cut : Option (List Char × List Char) :=
    match input.indexOf? '%' with
    | none => some (input, [])
    | some k => if input.drop (k + 1) = [] then none else some (input.take k, input.drop (k + 1))
  match cut with
  | none => none
  | some (s, zone) =>
    let zeros := List.replicate 16 0
    let start : Option V6State :=
      match s with
      | ':' :: ':' :: rest =>
        if rest = [] then some { s := [], i := 16, ip := zeros, ellipsis := none }
        else parseIPv6Loop 9 { s := rest, i := 0, ip := zeros, ellipsis := some 0 }
      | _ => parseIPv6Loop 9 { s := s, i := 0, ip := zeros, ellipsis := none }
    match start with
    | none => none
    | some st =>
      if st.s ≠ [] then none
      else if st.i < 16 then
        match st.ellipsis with
        | none => none
        | some e => some (expandEllipsis st.ip st.i e, zone)
      else if st.ellipsis ≠ none then none
      else some (st.ip, zone)

/-- Function `netip.ParseAddr` followed by `As16`, as `net.parseIP` uses it: the
first of `.`, `:` and `%` in the text selects the parser. -/
def parseAddr16 (input : List Char) : Option (List Nat × List Char) :=
  match input.find? (fun c => c = '.' ∨ c = ':' ∨ c = '%') with
  | some '.' => (parseIPv4Fields input).map (fun f => (v4InV6Lead ++ f, []))
  | some ':' => parseIPv6 input
  | _ => none

/-- Function `net.ParseIP`: the 16-byte address, or nil when the text is not an
IPv4 or IPv6 literal (a literal with a zone is not accepted). -/
def ParseIP (s : String) : IP :=
  match parseAddr16 s.data with
  | some (ip, zone) => if zone = [] then ip else []
  | none => []

/-! ## Go standard library: strings, host and port, headers -/

/-- Function `strings.Index` on character lists: where `sep` first occurs. -/
def Index : List Char → List Char → Option Nat
  | [], sep => if sep = [] then some 0 else none
  | c :: rest, sep =>
    if sep.isPrefixOf (c :: rest) then some 0
    else (Index rest sep).map (fun m => m + 1)

/-- The loop of `strings.genSplit` for a separator that is not empty: cut at each
occurrence of `sep` from the left.  The number of rounds is bounded by the
number of occurrences, which the length of the text bounds. -/
def genSplit (sep : List Char) : Nat → List Char → List (List Char)
  | 0, s => [s]
  | fuel + 1, s =>
    match Index s sep with
    | none => [s]
    | some m => s.take m :: genSplit sep fuel (s.drop (m + sep.length))

/-- Function `strings.Split`: with an empty separator the text is cut into its
characters, otherwise at every occurrence of the separator. -/
def Split (s sep : String) : List String :=
  if sep = "" then s.data.map (fun c => String.mk [c])
  else (genSplit sep.data s.data.length s.data).map String.mk

def missingPort : String := "missing port in address"

def tooManyColons : String := "too many colons in address"

/-- Function `bytealg.LastIndexByteString`. -/
def lastIndexByte (s : List Char) (c : Char) : Option Nat :=
  (s.reverse.indexOf? c).map (fun k => s.length - 1 - k)

/-- The last two checks of `net.SplitHostPort` and its successful return. -/
def splitHostPortTail (hostport : String) (host : List Char) (i j k : Nat) :
    Except AddrError (String × String) :=
  let hp := hostport.data
  if '[' ∈ hp.drop j then .error ⟨"unexpected '[' in address", hostport⟩
  else if ']' ∈ hp.drop k then .error ⟨"unexpected ']' in address", hostport⟩
  else .ok (String.mk host, String.mk (hp.drop (i + 1)))

/-- Function `net.SplitHostPort`. -/
def SplitHostPort (hostport : String) : Except AddrError (String × String) :=
  let hp := hostport.data
  match lastIndexByte hp ':' with
  | none => .error ⟨missingPort, hostport⟩
  | some i =>
    if hp.head? = some '[' then
      match hp.indexOf? ']' with
      | none => .error ⟨"missing ']' in address", hostport⟩
      | some e =>
        if e + 1 = hp.length then .error ⟨missingPort, hostport⟩
        else if e + 1 = i then splitHostPortTail hostport ((hp.take e).drop 1) i 1 (e + 1)
        else if hp.getD (e + 1) ' ' = ':' then .error ⟨tooManyColons, hostport⟩
        else .error ⟨missingPort, hostport⟩
    else
      let host := hp.take i
      if ':' ∈ host then .error ⟨tooManyColons, hostport⟩
      else splitHostPortTail hostport host i 0 0

/-- An `http.Header`: canonical header names with their values, in order. -/
abbrev Header := List (String × List String)

/-- Method `Header.Get`, called with a name in canonical form: the first value
under the name, the empty string when there is none. -/
def Header.Get (h : Header) (key : String) : String :=
  match h.lookup key with
  | some (v :: _) => v
  | _ => ""

/-- The parts of an `http.Request` that the handler reads. -/
structure Request where
  Header : Header
  RemoteAddr : String
  deriving DecidableEq, Repr

/-! ## `getClientIP` -/

/-- Function `getClientIP`: the address and the error, as Go returns them. -/
def getClientIP (r : Request) : IP × Option GoError :=
  let fwdFor := r.Header.Get "X-Forwarded-For"
  let ip : Except GoError String :=
    if fwdFor ≠ "" then
      let ips := Split fwdFor ", "
      .ok (ips.headD "")
    else
      match SplitHostPort r.RemoteAddr with
      | .ok (host, _) => .ok host
      | .error serr =>
        if serr.Err = "missing port in address" then .ok r.RemoteAddr
        else .error (GoError.addr serr)
  match ip with
  | .error err => ([], some err)
  | .ok ip =>
    let parsedIP := ParseIP ip
    if parsedIP = [] then ([], some (GoError.errorString "unable to parse address"))
    else (parsedIP, none)

/-- The last step of `getClientIP` on its own (the early return of the split
error and the lines from `net.ParseIP` on), for the proofs about it. -/
def parseCandidate (ip : Except GoError String) : IP × Option GoError :=
  match ip with
  | .error err => ([], some err)
  | .ok ip =>
    if ParseIP ip = [] then ([], some (GoError.errorString "unable to parse address"))
    else (ParseIP ip, none)

/-! ## The module and the geo record -/

/-- A Go `map[string]string`; the nil map is the empty list. -/
abbrev StrMap := List (String × String)

/-- Indexing `m[k]`: the empty string for a missing key. -/
def StrMap.get (m : StrMap) (k : String) : String := (m.lookup k).getD ""

/-- Assignment `m[k] = v`. -/
def StrMap.set (m : StrMap) (k v : String) : StrMap :=
  (k, v) :: m.filter (fun p => p.1 ≠ k)

/-- A `float64`, kept as its IEEE-754 bit pattern: the handler only carries the
coordinates, it never computes on them.  The zero value is `0`. -/
abbrev float64 := Nat

structure geoIPRecord.CountryT where
  ISOCode : String := ""
  IsInEuropeanUnion : Bool := false
  Names : StrMap := []
  GeoNameID : Nat := 0
  deriving DecidableEq, Repr

structure geoIPRecord.CityT where
  Names : StrMap := []
  GeoNameID : Nat := 0
  deriving DecidableEq, Repr

structure geoIPRecord.LocationT where
  Latitude : float64 := 0
  Longitude : float64 := 0
  TimeZone : String := ""
  deriving DecidableEq, Repr

/-- Type `geoIPRecord`; the default values are Go's zero value. -/
structure geoIPRecord where
  Country : geoIPRecord.CountryT := {}
  City : geoIPRecord.CityT := {}
  Location : geoIPRecord.LocationT := {}
  deriving DecidableEq, Repr

/-- An open `*maxminddb.Reader`, as its method `Lookup(ip, &record)`: the record
after decoding into it, and the error. -/
abbrev Reader := IP → geoIPRecord → geoIPRecord × Option String

structure Geoip.BlockListT where
  Country : List String := []
  IP : List IP := []
  deriving DecidableEq, Repr

structure Geoip.AllowListT where
  AllowOnly : Bool := false
  Country : List String := []
  IP : List IP := []
  deriving DecidableEq, Repr

structure Geoip.RequestCountryT where
  Name : String := ""
  Code : String := ""
  deriving DecidableEq, Repr

/-- Type `Geoip`, a middleware instance after `Provision`: the database is
open.  The logger is left out: it only receives the warning of a failed
lookup. -/
structure Geoip where
  BlockList : Geoip.BlockListT := {}
  AllowList : Geoip.AllowListT := {}
  RequestIP : IP := []
  RequestCountry : Geoip.RequestCountryT := {}
  DatabasePath : String := ""
  DBHandler : Reader

/-! ## The geo lookup -/

/-- Method `fetchGeoipData`: the receiver after the call and the record. -/
def fetchGeoipData (g : Geoip) (r : Request) : Geoip × geoIPRecord :=
  let clientIP := (getClientIP r).1
  let g := { g with RequestIP := clientIP }
  let record : geoIPRecord := {}
  let record := (g.DBHandler clientIP record).1
  if record.Country.ISOCode = "" then
    let record := { record with
      Country := { record.Country with Names := [] },
      City := { record.City with Names := [] } }
    if IP.IsLoopback clientIP then
      (g, { record with
        Country := { record.Country with
          ISOCode := "**", Names := record.Country.Names.set "en" "Loopback" },
        City := { record.City with Names := record.City.Names.set "en" "Loopback" } })
    else
      (g, { record with
        Country := { record.Country with
          ISOCode := "!!", Names := record.Country.Names.set "en" "No Country" },
        City := { record.City with Names := record.City.Names.set "en" "No City" } })
  else (g, record)

/-- Method `lookupLocation`: the receiver after the call.  The values it also sets
on the request's replacer (which Caddy puts into every request context) are
written to that replacer, not to the module, and no later step of the handler
reads them. -/
def lookupLocation (g : Geoip) (r : Request) : Geoip :=
  let (g, record) := fetchGeoipData g r
  { g with RequestCountry :=
    { Code := record.Country.ISOCode, Name := record.Country.Names.get "en" } }

/-! ## The handler -/

/-- What `ServeHTTP` returns: the result of the next handler (the request is
permitted) or the 403 error (the request is denied). -/
inductive Verdict where
  | next
  | forbidden
  deriving DecidableEq, Repr

/-- The two loops over the block list in `ServeHTTP`: some jump to
`CheckAllowList` is taken. -/
def blockListMatch (g : Geoip) : Bool :=
  g.BlockList.Country.any (fun country => country == g.RequestCountry.Code) ||
    g.BlockList.IP.any (fun ip => IPString ip == IPString g.RequestIP)

/-- The code under the label `CheckAllowList` in `ServeHTTP`. -/
def CheckAllowList (g : Geoip) : Verdict :=
  if g.AllowList.Country.any (fun country => country == g.RequestCountry.Code) then Verdict.next
  else if g.AllowList.IP.any (fun ip => IPString ip == IPString g.RequestIP) then Verdict.next
  else Verdict.forbidden

/-- The result of `ServeHTTP`: the verdict, and the receiver (the handler's own
copy of the module, since the receiver is a value) when the call returns. -/
structure Served where
  verdict : Verdict
  g : Geoip

/-- Method `ServeHTTP`. -/
def ServeHTTP (g : Geoip) (r : Request) : Served :=
  let g := lookupLocation g r
  if g.AllowList.AllowOnly then ⟨CheckAllowList g, g⟩
  else if blockListMatch g then ⟨CheckAllowList g, g⟩
  else ⟨Verdict.next, g⟩

/-! ## Filling the lists: `UnmarshalCaddyfile` -/

/-- Function `strconv.ParseBool`: the value, and whether there is an error. -/
def ParseBool (str : String) : Bool × Bool :=
  if str ∈ ["1", "t", "T", "true", "TRUE", "True"] then (true, false)
  else if str ∈ ["0", "f", "F", "false", "FALSE", "False"] then (false, false)
  else (false, true)

/-- One line of a `block_list` or `allow_list` block, as the dispenser hands it
out: the token `d.Val()` and the rest of the line, `d.RemainingArgs()`. -/
structure Line where
  val : String
  args : List String
  deriving DecidableEq, Repr

/-- One entry of the `geoip` block: the token `d.Val()` and the lines of the
block it opens, which `d.NextBlock(1)` walks through. -/
structure Directive where
  val : String
  block : List Line
  deriving DecidableEq, Repr

/-- One `geoip` directive: the arguments on its line and the entries of its
block, which `d.NextBlock(0)` walks through. -/
structure Segment where
  args : List String
  block : List Directive
  deriving DecidableEq, Repr

/-- How `UnmarshalCaddyfile` fails: with `d.ArgErr()`, with `d.Errf(...)`, or
with the run-time panic of `args[0]` on an `allow_only` line without
arguments. -/
inductive UnmarshalError where
  | ArgErr
  | Errf (msg : String)
  | indexOutOfRange
  deriving DecidableEq, Repr

/-- The loop `for _, ip := range args` of the `ip` cases: every argument is
appended as `net.ParseIP` returns it, the nil address included. -/
def appendParsedIPs (ips : List IP) (args : List String) : List IP :=
  args.foldl (fun acc ip => acc ++ [ParseIP ip]) ips

/-- The body of the loop over a `block_list` block. -/
def blockListLine (g : Geoip) (l : Line) : Except UnmarshalError Geoip :=
  if l.val = "country" then
    .ok { g with BlockList := { g.BlockList with Country := g.BlockList.Country ++ l.args } }
  else if l.val = "ip" then
    .ok { g with BlockList := { g.BlockList with IP := appendParsedIPs g.BlockList.IP l.args } }
  else .error (UnmarshalError.Errf ("unrecognized subdirective in geoip block_list " ++ l.val))

/-- The body of the loop over an `allow_list` block. -/
def allowListLine (g : Geoip) (l : Line) : Except UnmarshalError Geoip :=
  if l.val = "allow_only" then
    match l.args with
    | [] => .error UnmarshalError.indexOutOfRange
    | a0 :: _ =>
      let (allowOnly, err) := ParseBool a0
      if l.args.length ≠ 1 ∨ err = true then .error UnmarshalError.ArgErr
      else .ok { g with AllowList := { g.AllowList with AllowOnly := allowOnly } }
  else if l.val = "country" then
    .ok { g with AllowList := { g.AllowList with Country := g.AllowList.Country ++ l.args } }
  else if l.val = "ip" then
    .ok { g with AllowList := { g.AllowList with IP := appendParsedIPs g.AllowList.IP l.args } }
  else .error (UnmarshalError.Errf ("unrecognized subdirective in geoip allow_list " ++ l.val))

/-- The body of the loop `for d.NextBlock(0)`. -/
def geoipEntry (g : Geoip) (d : Directive) : Except UnmarshalError Geoip :=
  if d.val = "block_list" then d.block.foldlM blockListLine g
  else if d.val = "allow_list" then d.block.foldlM allowListLine g
  else .error (UnmarshalError.Errf ("unrecognized subdirective in geoip plugin " ++ d.val))

/-- The body of the loop `for d.Next()`. -/
def geoipSegment (g : Geoip) (seg : Segment) : Except UnmarshalError Geoip :=
  match seg.args with
  | [path] => seg.block.foldlM geoipEntry { g with DatabasePath := path }
  | _ => .error UnmarshalError.ArgErr

/-- Method `UnmarshalCaddyfile` on the directives that the dispenser holds. -/
def UnmarshalCaddyfile (g : Geoip) (d : List Segment) : Except UnmarshalError Geoip :=
  d.foldlM geoipSegment g

/-! ## The client address resolver of the specification -/

/-- The peer address has no port, in the specification's sense: it holds no
colon at all, or it is as a whole an IPv4 or IPv6 literal (the colons of an
IPv6 literal separate its groups, none of them starts a port suffix). -/
def peerHasNoPort (addr : String) : Prop :=
  ':' ∉ addr.data ∨ ParseIP addr ≠ []

instance (addr : String) : Decidable (peerHasNoPort addr) := by
  unfold peerHasNoPort
  infer_instance

/-- The candidate address string in the specification's words (section 4.1,
steps 1 and 2): the first entry of a forwarding header that is not empty, cut
at comma and space; otherwise the peer address as it is when it has no port,
and its host part when it is in host:port form.  There is no candidate when
the peer address has a port part that cannot be split off. -/
def specCandidate (r : Request) : Option String :=
  if r.Header.Get "X-Forwarded-For" ≠ "" then
    (Split (r.Header.Get "X-Forwarded-For") ", ").head?
  else if peerHasNoPort r.RemoteAddr then some r.RemoteAddr
  else (SplitHostPort r.RemoteAddr).toOption.map (fun hp => hp.1)

/-- Port-stripping fails for a reason other than "no port present", in the
specification's words (section 4.1, step 4): the peer address is consulted, it
is not an address without port, and host and port cannot be split. -/
def specSplitFails (r : Request) : Prop :=
  r.Header.Get "X-Forwarded-For" = "" ∧ ¬ peerHasNoPort r.RemoteAddr ∧
    (SplitHostPort r.RemoteAddr).toOption = none

instance (r : Request) : Decidable (specSplitFails r) := by
  unfold specSplitFails
  infer_instance

/-- The requests on which `getClientIP` leaves the specification: no forwarding
header and a peer address that is an IPv6 literal without port. -/
def bareIPv6Peer (r : Request) : Prop :=
  r.Header.Get "X-Forwarded-For" = "" ∧ ':' ∈ r.RemoteAddr.data ∧ ParseIP r.RemoteAddr ≠ []

instance (r : Request) : Decidable (bareIPv6Peer r) := by
  unfold bareIPv6Peer
  infer_instance

/-! ## The configurations and requests of the repository's tests -/

/-- The country of a test address, as `caddyfile_test.go` expects the database
to give it. -/
def testCountry (code name : String) (record : geoIPRecord) : geoIPRecord :=
  { record with Country := { record.Country with ISOCode := code, Names := [("en", name)] } }

/-- A database that knows the three addresses of the tests and nothing else; a
nil address is an error. -/
def testDB : Reader := fun ip record =>
  if ip = [] then (record, some "IP passed to Lookup cannot be nil")
  else if ip = ParseIP "120.100.100.0" then (testCountry "TW" "Taiwan" record, none)
  else if ip = ParseIP "35.100.100.0" then (testCountry "US" "United States" record, none)
  else if ip = ParseIP "212.100.100.0" then (testCountry "SE" "Sweden" record, none)
  else (record, none)

/-- The module of `TestAllowListResponse`. -/
def testAllowOnly : Geoip :=
  { AllowList := { AllowOnly := true, Country := ["US"], IP := [ParseIP "120.100.100.0"] },
    DatabasePath := "cmd/GeoLite2-Country.mmdb",
    DBHandler := testDB }

/-- The module of `TestBlockListResponse`. -/
def testBlockList : Geoip :=
  { BlockList := { Country := ["TW"], IP := [ParseIP "35.100.100.0"] },
    AllowList := { AllowOnly := false, Country := ["US"] },
    DatabasePath := "cmd/GeoLite2-Country.mmdb",
    DBHandler := testDB }

/-- The request of `CheckResponse`: the test address in the forwarding header,
sent from the local host. -/
def testRequest (testIP : String) : Request :=
  { Header := [("X-Forwarded-For", [testIP])], RemoteAddr := "127.0.0.1:40000" }

/-- A request without forwarding header from a given peer address. -/
def peerRequest (remoteAddr : String) : Request :=
  { Header := [], RemoteAddr := remoteAddr }

/-- A request whose forwarding header holds two addresses separated by a comma
alone. -/
def commaOnlyRequest : Request :=
  { Header := [("X-Forwarded-For", ["1.1.1.1,2.2.2.2"])], RemoteAddr := "127.0.0.1:40000" }

/-- The text `s` is an argument of an `ip` line in an `allow_list` block. -/
def allowListIPArg (s : String) (d : List Segment) : Prop :=
  ∃ seg ∈ d, ∃ e ∈ seg.block, e.val = "allow_list" ∧ ∃ l ∈ e.block, l.val = "ip" ∧ s ∈ l.args

/-- The text `s` is an argument of an `ip` line in a `block_list` block. -/
def blockListIPArg (s : String) (d : List Segment) : Prop :=
  ∃ seg ∈ d, ∃ e ∈ seg.block, e.val = "block_list" ∧ ∃ l ∈ e.block, l.val = "ip" ∧ s ∈ l.args

/-- A configuration with an address that is no IP literal in each list, in
allow-only mode. -/
def invalidEntries : List Segment :=
  [{ args := ["cmd/GeoLite2-Country.mmdb"],
     block :=
      [{ val := "block_list", block := [{ val := "ip", args := ["localhost"] }] },
       { val := "allow_list",
         block :=
          [{ val := "ip", args := ["10.0.0.0/8"] },
           { val := "allow_only", args := ["true"] }] }] }]

/-- The module that `UnmarshalCaddyfile` builds from `invalidEntries`. -/
def invalidEntriesModule : Geoip :=
  { BlockList := { IP := [[]] },
    AllowList := { AllowOnly := true, IP := [[]] },
    DatabasePath := "cmd/GeoLite2-Country.mmdb",
    DBHandler := testDB }

/-! ## Matching a request against the lists -/

/-- The request matches the allow list of `g`: the country code that the lookup
yields is an allow-list country, or the client address has the textual form of
an allow-list address. -/
def allowListed (g : Geoip) (r : Request) : Prop :=
  (fetchGeoipData g r).2.Country.ISOCode ∈ g.AllowList.Country ∨
    ∃ e ∈ g.AllowList.IP, IPString e = IPString (getClientIP r).1

/-- The request matches the block list of `g`, in the same sense. -/
def blockListed (g : Geoip) (r : Request) : Prop :=
  (fetchGeoipData g r).2.Country.ISOCode ∈ g.BlockList.Country ∨
    ∃ e ∈ g.BlockList.IP, IPString e = IPString (getClientIP r).1

instance (g : Geoip) (r : Request) : Decidable (allowListed g r) := by
  unfold allowListed
  infer_instance

instance (g : Geoip) (r : Request) : Decidable (blockListed g r) := by
  unfold blockListed
  infer_instance

/-! ## Frame lemmas for the geo lookup -/

theorem fetchGeoipData_fst (g : Geoip) (r : Request) :
    (fetchGeoipData g r).1 = { g with RequestIP := (getClientIP r).1 } := by
  unfold fetchGeoipData
  simp only []
  split
  · split <;> rfl
  · rfl

theorem fetchGeoipData_snd_blockList (g : Geoip) (bl : Geoip.BlockListT) (r : Request) :
    (fetchGeoipData { g with BlockList := bl } r).2 = (fetchGeoipData g r).2 := by
  unfold fetchGeoipData
  simp only []
  split
  · split <;> rfl
  · rfl

theorem lookupLocation_eq (g : Geoip) (r : Request) :
    lookupLocation g r =
      { g with
        RequestIP := (getClientIP r).1,
        RequestCountry :=
          { Code := (fetchGeoipData g r).2.Country.ISOCode,
            Name := (fetchGeoipData g r).2.Country.Names.get "en" } } := by
  unfold lookupLocation
  have h := fetchGeoipData_fst g r
  revert h
  cases fetchGeoipData g r with
  | mk g1 rec =>
    intro h
    simp only [] at h
    subst h
    rfl

theorem any_eq_iff_mem (l : List String) (code : String) :
    l.any (fun country => country == code) = true ↔ code ∈ l := by
  simp [List.any_eq_true]

theorem any_ip_iff (l : List IP) (ip : IP) :
    l.any (fun e => IPString e == IPString ip) = true ↔
      ∃ e ∈ l, IPString e = IPString ip := by
  simp [List.any_eq_true]

theorem CheckAllowList_next_iff (g : Geoip) :
    CheckAllowList g = Verdict.next ↔
      (g.RequestCountry.Code ∈ g.AllowList.Country ∨
        ∃ e ∈ g.AllowList.IP, IPString e = IPString g.RequestIP) := by
  unfold CheckAllowList
  rw [← any_eq_iff_mem, ← any_ip_iff]
  by_cases h1 : (g.AllowList.Country.any fun country => country == g.RequestCountry.Code) = true
  · simp [h1]
  · by_cases h2 : (g.AllowList.IP.any fun ip => IPString ip == IPString g.RequestIP) = true
    · simp [h1, h2]
    · simp [h1, h2]

theorem blockListMatch_iff (g : Geoip) :
    blockListMatch g = true ↔
      (g.RequestCountry.Code ∈ g.BlockList.Country ∨
        ∃ e ∈ g.BlockList.IP, IPString e = IPString g.RequestIP) := by
  unfold blockListMatch
  rw [Bool.or_eq_true, any_eq_iff_mem, any_ip_iff]

theorem verdict_cases (v : Verdict) : v = Verdict.forbidden ↔ ¬ v = Verdict.next := by
  cases v <;> simp

/-- The verdict of `ServeHTTP` in terms of the receiver after `lookupLocation`. -/
theorem ServeHTTP_verdict_eq (g : Geoip) (r : Request) :
    (ServeHTTP g r).verdict =
      if (lookupLocation g r).AllowList.AllowOnly = true then CheckAllowList (lookupLocation g r)
      else if blockListMatch (lookupLocation g r) = true then
        CheckAllowList (lookupLocation g r)
      else Verdict.next := by
  unfold ServeHTTP
  simp only []
  split
  · rfl
  · split <;> rfl

theorem ServeHTTP_g (g : Geoip) (r : Request) : (ServeHTTP g r).g = lookupLocation g r := by
  unfold ServeHTTP
  simp only []
  split
  · rfl
  · split <;> rfl

/-! ## The policy evaluation -/

theorem CheckAllowList_lookup_iff (g : Geoip) (r : Request) :
    CheckAllowList (lookupLocation g r) = Verdict.next ↔ allowListed g r := by
  have hA := CheckAllowList_next_iff (lookupLocation g r)
  rw [lookupLocation_eq] at hA ⊢
  exact hA

theorem blockListMatch_lookup_iff (g : Geoip) (r : Request) :
    blockListMatch (lookupLocation g r) = true ↔ blockListed g r := by
  have hB := blockListMatch_iff (lookupLocation g r)
  rw [lookupLocation_eq] at hB ⊢
  exact hB

theorem lookupLocation_AllowOnly (g : Geoip) (r : Request) :
    (lookupLocation g r).AllowList.AllowOnly = g.AllowList.AllowOnly := by
  rw [lookupLocation_eq]

theorem verdict_next_iff (g : Geoip) (r : Request) :
    (ServeHTTP g r).verdict = Verdict.next ↔
      (allowListed g r ∨ (g.AllowList.AllowOnly = false ∧ ¬ blockListed g r)) := by
  rw [ServeHTTP_verdict_eq, lookupLocation_AllowOnly]
  by_cases ho : g.AllowList.AllowOnly = true
  · rw [if_pos ho, CheckAllowList_lookup_iff]
    simp [ho]
  · have ho2 : g.AllowList.AllowOnly = false := by simpa using ho
    rw [if_neg ho]
    by_cases hb : blockListMatch (lookupLocation g r) = true
    · rw [if_pos hb, CheckAllowList_lookup_iff]
      have hb2 := (blockListMatch_lookup_iff g r).mp hb
      constructor
      · intro h
        exact Or.inl h
      · rintro (h | ⟨_, h⟩)
        · exact h
        · exact absurd hb2 h
    · rw [if_neg hb]
      have hb2 : ¬ blockListed g r := fun h => hb ((blockListMatch_lookup_iff g r).mpr h)
      simp only [true_iff]
      exact Or.inr ⟨ho2, hb2⟩

/-- Claim C1.  For every module configuration and every request, with the
country code that the geo lookup yields and the client address that
`getClientIP` yields, `ServeHTTP` permits (calls the next handler) exactly when
the code is an allow-list country or the address has the textual form of an
allow-list address, or `AllowOnly` is false and neither the code is a block-list
country nor the address has the textual form of a block-list address; in every
other case it answers 403. -/
theorem ServeHTTP_permit_iff (g : Geoip) (r : Request) :
    ((ServeHTTP g r).verdict = Verdict.next ↔
      (((fetchGeoipData g r).2.Country.ISOCode ∈ g.AllowList.Country ∨
          ∃ e ∈ g.AllowList.IP, IPString e = IPString (getClientIP r).1) ∨
        (g.AllowList.AllowOnly = false ∧
          ¬ ((fetchGeoipData g r).2.Country.ISOCode ∈ g.BlockList.Country ∨
            ∃ e ∈ g.BlockList.IP, IPString e = IPString (getClientIP r).1)))) ∧
    ((ServeHTTP g r).verdict = Verdict.forbidden ↔
      ¬ (((fetchGeoipData g r).2.Country.ISOCode ∈ g.AllowList.Country ∨
          ∃ e ∈ g.AllowList.IP, IPString e = IPString (getClientIP r).1) ∨
        (g.AllowList.AllowOnly = false ∧
          ¬ ((fetchGeoipData g r).2.Country.ISOCode ∈ g.BlockList.Country ∨
            ∃ e ∈ g.BlockList.IP, IPString e = IPString (getClientIP r).1)))) := by
  have key := verdict_next_iff g r
  unfold allowListed blockListed at key
  exact ⟨key, by rw [verdict_cases, key]⟩

/-- Claim C2.  When a request matches an allow-list entry and a block-list entry
at once (by country code or by the textual form of the client address, so in
particular when the client address is in both address sets), `ServeHTTP`
permits it. -/
theorem ServeHTTP_allow_over_block (g : Geoip) (r : Request)
    (hallow : (fetchGeoipData g r).2.Country.ISOCode ∈ g.AllowList.Country ∨
      ∃ e ∈ g.AllowList.IP, IPString e = IPString (getClientIP r).1)
    (_hblock : (fetchGeoipData g r).2.Country.ISOCode ∈ g.BlockList.Country ∨
      ∃ e ∈ g.BlockList.IP, IPString e = IPString (getClientIP r).1) :
    (ServeHTTP g r).verdict = Verdict.next :=
  (verdict_next_iff g r).mpr (Or.inl hallow)

/-- The blocked address 35.100.100.0 from the allowed country US, as in
`TestBlockListResponse`, and an address that is in both address sets. -/
theorem ServeHTTP_allow_over_block_witness :
    (ServeHTTP testBlockList (testRequest "35.100.100.0")).verdict = Verdict.next ∧
    (ServeHTTP
        { testBlockList with
          AllowList := { testBlockList.AllowList with IP := [ParseIP "120.100.100.0"] },
          BlockList := { testBlockList.BlockList with IP := [ParseIP "120.100.100.0"] } }
        (testRequest "120.100.100.0")).verdict = Verdict.next :=
  ⟨ServeHTTP_allow_over_block testBlockList (testRequest "35.100.100.0")
      (by decide) (by decide),
    ServeHTTP_allow_over_block _ (testRequest "120.100.100.0") (by decide) (by decide)⟩

/-- Claim C3.  When `AllowOnly` is true the verdict of `ServeHTTP` does not
depend on the block list: it is permit exactly when the country code is an
allow-list country or the client address has the textual form of an allow-list
address, it is deny for everything else, and it is the same for every other
block list. -/
theorem ServeHTTP_allowOnly (g : Geoip) (r : Request) (h : g.AllowList.AllowOnly = true) :
    ((ServeHTTP g r).verdict = Verdict.next ↔
      ((fetchGeoipData g r).2.Country.ISOCode ∈ g.AllowList.Country ∨
        ∃ e ∈ g.AllowList.IP, IPString e = IPString (getClientIP r).1)) ∧
    ((ServeHTTP g r).verdict = Verdict.forbidden ↔
      ¬ ((fetchGeoipData g r).2.Country.ISOCode ∈ g.AllowList.Country ∨
        ∃ e ∈ g.AllowList.IP, IPString e = IPString (getClientIP r).1)) ∧
    ∀ bl : Geoip.BlockListT,
      (ServeHTTP { g with BlockList := bl } r).verdict = (ServeHTTP g r).verdict := by
  have key : ∀ g1 : Geoip, g1.AllowList.AllowOnly = true →
      ((ServeHTTP g1 r).verdict = Verdict.next ↔ allowListed g1 r) := by
    intro g1 h1
    rw [verdict_next_iff]
    simp [h1]
  have k := key g h
  refine ⟨k, by rw [verdict_cases, k]; rfl, ?_⟩
  intro bl
  have k2 := key { g with BlockList := bl } h
  have e : allowListed { g with BlockList := bl } r ↔ allowListed g r := by
    unfold allowListed
    rw [fetchGeoipData_snd_blockList]
  rw [e] at k2
  cases h1 : (ServeHTTP { g with BlockList := bl } r).verdict <;>
    cases h2 : (ServeHTTP g r).verdict <;> simp_all

/-- The three requests of `TestAllowListResponse`: Taiwan from the listed
address and the United States are permitted, Sweden is denied; and the verdicts
stay when the block list of `TestBlockListResponse` is added. -/
theorem ServeHTTP_allowOnly_witness :
    testAllowOnly.AllowList.AllowOnly = true ∧
    (ServeHTTP testAllowOnly (testRequest "120.100.100.0")).verdict = Verdict.next ∧
    (ServeHTTP testAllowOnly (testRequest "35.100.100.0")).verdict = Verdict.next ∧
    (ServeHTTP testAllowOnly (testRequest "212.100.100.0")).verdict = Verdict.forbidden ∧
    (ServeHTTP { testAllowOnly with BlockList := testBlockList.BlockList }
      (testRequest "35.100.100.0")).verdict = Verdict.next :=
  ⟨by decide,
    (ServeHTTP_allowOnly testAllowOnly (testRequest "120.100.100.0") (by decide)).1.mpr
      (by decide),
    (ServeHTTP_allowOnly testAllowOnly (testRequest "35.100.100.0") (by decide)).1.mpr
      (by decide),
    (ServeHTTP_allowOnly testAllowOnly (testRequest "212.100.100.0") (by decide)).2.1.mpr
      (by decide),
    ((ServeHTTP_allowOnly testAllowOnly (testRequest "35.100.100.0") (by decide)).2.2
      testBlockList.BlockList).trans
      ((ServeHTTP_allowOnly testAllowOnly (testRequest "35.100.100.0") (by decide)).1.mpr
        (by decide))⟩

/-- The three requests of `TestBlockListResponse`: Taiwan is denied, the blocked
address from the United States is permitted, Sweden is permitted. -/
theorem TestBlockListResponse_verdicts :
    (ServeHTTP testBlockList (testRequest "120.100.100.0")).verdict = Verdict.forbidden ∧
    (ServeHTTP testBlockList (testRequest "35.100.100.0")).verdict = Verdict.next ∧
    (ServeHTTP testBlockList (testRequest "212.100.100.0")).verdict = Verdict.next := by
  decide

/-! ## Client address extraction -/

theorem genSplit_ne_nil (sep : List Char) (fuel : Nat) (s : List Char) :
    genSplit sep fuel s ≠ [] := by
  cases fuel with
  | zero => simp [genSplit]
  | succ n =>
    unfold genSplit
    split <;> simp

theorem Split_comma_space_head (s : String) :
    (Split s ", ").head? = some ((Split s ", ").headD "") := by
  have h : Split s ", " ≠ [] := by
    unfold Split
    rw [if_neg (by decide)]
    intro hm
    exact genSplit_ne_nil _ _ _ (List.map_eq_nil_iff.mp hm)
  cases hs : Split s ", " with
  | nil => exact absurd hs h
  | cons a t => rfl

theorem parseCandidate_error_nil (ip : Except GoError String)
    (h : (parseCandidate ip).2 ≠ none) : (parseCandidate ip).1 = [] := by
  unfold parseCandidate at h ⊢
  cases ip with
  | error e => rfl
  | ok c =>
    by_cases hp : ParseIP c = []
    · simp [hp]
    · simp [hp] at h

theorem parseCandidate_ok (c : String) :
    ((parseCandidate (.ok c)).2 ≠ none ↔ ParseIP c = []) ∧
    ((parseCandidate (.ok c)).2 = none → parseCandidate (.ok c) = (ParseIP c, none)) := by
  unfold parseCandidate
  by_cases hp : ParseIP c = []
  · simp [hp]
  · simp [hp]

theorem getClientIP_forwarded (r : Request) (h : r.Header.Get "X-Forwarded-For" ≠ "") :
    getClientIP r =
      parseCandidate (.ok ((Split (r.Header.Get "X-Forwarded-For") ", ").headD "")) := by
  unfold getClientIP parseCandidate
  simp only [h, ne_eq, not_false_eq_true, if_true]

theorem getClientIP_peer (r : Request) (h : r.Header.Get "X-Forwarded-For" = "") :
    getClientIP r =
      parseCandidate
        (match SplitHostPort r.RemoteAddr with
          | .ok (host, _) => .ok host
          | .error serr =>
            if serr.Err = "missing port in address" then .ok r.RemoteAddr
            else .error (GoError.addr serr)) := by
  unfold getClientIP parseCandidate
  simp only [h, ne_eq, not_true_eq_false, if_false]

theorem getClientIP_error_nil (r : Request) (h : (getClientIP r).2 ≠ none) :
    (getClientIP r).1 = [] := by
  by_cases hh : r.Header.Get "X-Forwarded-For" = ""
  · rw [getClientIP_peer r hh] at h ⊢
    exact parseCandidate_error_nil _ h
  · rw [getClientIP_forwarded r hh] at h ⊢
    exact parseCandidate_error_nil _ h

theorem lastIndexByte_none (s : List Char) (c : Char) (h : c ∉ s) : lastIndexByte s c = none := by
  unfold lastIndexByte
  have : s.reverse.indexOf? c = none := by
    simp only [List.indexOf?, List.findIdx?_eq_none_iff, List.mem_reverse]
    intro x hx
    rw [beq_eq_false_iff_ne]
    intro hxc
    exact h (hxc ▸ hx)
  rw [this]
  rfl

theorem SplitHostPort_no_colon (addr : String) (h : ':' ∉ addr.data) :
    SplitHostPort addr = .error ⟨missingPort, addr⟩ := by
  unfold SplitHostPort
  simp only [lastIndexByte_none _ _ h]

/-- Outside the requests of `bareIPv6Peer`, `getClientIP` does what the
specification says: it returns an error exactly when port-stripping fails for a
reason other than a missing port or the candidate is no IP literal, the address
is nil with an error, and otherwise it is the parsed candidate. -/
theorem getClientIP_spec_outside_bareIPv6 (r : Request) (h : ¬ bareIPv6Peer r) :
    ((getClientIP r).2 ≠ none ↔
      (specSplitFails r ∨ ∃ c, specCandidate r = some c ∧ ParseIP c = [])) ∧
    ((getClientIP r).2 ≠ none → (getClientIP r).1 = []) ∧
    ((getClientIP r).2 = none →
      ∃ c, specCandidate r = some c ∧ ParseIP c ≠ [] ∧ getClientIP r = (ParseIP c, none)) := by
  have hm : missingPort = "missing port in address" := rfl
  refine ⟨?_, getClientIP_error_nil r, ?_⟩
  · by_cases hh : r.Header.Get "X-Forwarded-For" = ""
    · by_cases hc : ':' ∈ r.RemoteAddr.data
      · have hp : ParseIP r.RemoteAddr = [] := by
          by_contra hne
          exact h ⟨hh, hc, hne⟩
        have hnp : ¬ peerHasNoPort r.RemoteAddr := by
          rintro (h1 | h1)
          · exact h1 hc
          · exact h1 hp
        rw [getClientIP_peer r hh]
        unfold specSplitFails specCandidate
        simp only [hh, ne_eq, not_true_eq_false, if_false, hnp, not_false_eq_true, true_and]
        cases hs : SplitHostPort r.RemoteAddr with
        | ok hp1 =>
          simp only [(parseCandidate_ok hp1.1).1, Except.toOption, Option.map_some',
            Option.some.injEq, exists_eq_left', false_or, reduceCtorEq]
        | error e =>
          simp only [Except.toOption, true_or, iff_true]
          by_cases he : e.Err = "missing port in address"
          · rw [if_pos he]
            exact (parseCandidate_ok _).1.mpr hp
          · rw [if_neg he]
            simp [parseCandidate]
      · have hnp : peerHasNoPort r.RemoteAddr := Or.inl hc
        have hnf : ¬ specSplitFails r := fun hf => hf.2.1 hnp
        rw [getClientIP_peer r hh, SplitHostPort_no_colon _ hc]
        unfold specCandidate
        simp only [hh, ne_eq, not_true_eq_false, if_false, hnp, if_true, hm,
          (parseCandidate_ok _).1, hnf, false_or, Option.some.injEq, exists_eq_left']
    · have hnf : ¬ specSplitFails r := fun hf => hh hf.1
      rw [getClientIP_forwarded r hh]
      unfold specCandidate
      simp only [hh, ne_eq, not_false_eq_true, if_true, Split_comma_space_head,
        (parseCandidate_ok _).1, hnf, false_or, Option.some.injEq, exists_eq_left']
  · intro hn
    by_cases hh : r.Header.Get "X-Forwarded-For" = ""
    · by_cases hc : ':' ∈ r.RemoteAddr.data
      · have hp : ParseIP r.RemoteAddr = [] := by
          by_contra hne
          exact h ⟨hh, hc, hne⟩
        have hnp : ¬ peerHasNoPort r.RemoteAddr := by
          rintro (h1 | h1)
          · exact h1 hc
          · exact h1 hp
        rw [getClientIP_peer r hh] at hn ⊢
        unfold specCandidate
        simp only [hh, ne_eq, not_true_eq_false, if_false, hnp]
        cases hs : SplitHostPort r.RemoteAddr with
        | ok hp1 =>
          rw [hs] at hn
          refine ⟨hp1.1, rfl, ?_, (parseCandidate_ok hp1.1).2 hn⟩
          intro h0
          exact ((parseCandidate_ok hp1.1).1.mpr h0) hn
        | error e =>
          rw [hs] at hn
          exfalso
          by_cases he : e.Err = "missing port in address"
          · simp only [he, if_true] at hn
            exact ((parseCandidate_ok _).1.mpr hp) hn
          · simp only [he, if_false] at hn
            simp [parseCandidate] at hn
      · have hnp : peerHasNoPort r.RemoteAddr := Or.inl hc
        rw [getClientIP_peer r hh, SplitHostPort_no_colon _ hc] at hn ⊢
        simp only [hm, if_true] at hn ⊢
        unfold specCandidate
        simp only [hh, ne_eq, not_true_eq_false, if_false, hnp, if_true]
        refine ⟨r.RemoteAddr, rfl, ?_, (parseCandidate_ok _).2 hn⟩
        intro h0
        exact ((parseCandidate_ok _).1.mpr h0) hn
    · rw [getClientIP_forwarded r hh] at hn ⊢
      unfold specCandidate
      simp only [hh, ne_eq, not_false_eq_true, if_true, Split_comma_space_head]
      refine ⟨_, rfl, ?_, (parseCandidate_ok _).2 hn⟩
      intro h0
      exact ((parseCandidate_ok _).1.mpr h0) hn

/-- Claim C7 at a peer address that is an IPv6 literal without port.  For the
request without forwarding header from `::1` the candidate of the
specification is the peer address as it is, the candidate is a valid IPv6
literal, and no port-stripping fails for a reason other than a missing port:
the claim says the parsed address is returned without error.  `getClientIP`
returns the nil address and the error of `net.SplitHostPort`, whose text is
`too many colons in address`. -/
theorem getClientIP_error_without_cause :
    specCandidate (peerRequest "::1") = some "::1" ∧
    ParseIP "::1" ≠ [] ∧
    ¬ specSplitFails (peerRequest "::1") ∧
    (getClientIP (peerRequest "::1")).2 =
      some (GoError.addr ⟨"too many colons in address", "::1"⟩) ∧
    (getClientIP (peerRequest "::1")).1 = [] ∧
    ¬ ((getClientIP (peerRequest "::1")).2 ≠ none ↔
      (specSplitFails (peerRequest "::1") ∨
        ∃ c, specCandidate (peerRequest "::1") = some c ∧ ParseIP c = [])) := by
  refine ⟨by decide, by decide, by decide, by decide, by decide, ?_⟩
  intro hiff
  rcases hiff.mp (by decide) with hf | ⟨c, hc, hp⟩
  · exact absurd hf (by decide)
  · have hc2 : specCandidate (peerRequest "::1") = some "::1" := by decide
    rw [hc2] at hc
    cases hc
    exact absurd hp (by decide)

/-- The requests without forwarding header from `::1` and from `2001:db8::1`
are requests of `bareIPv6Peer`; the one from `[::1]:443` is not, and the
statement for the other requests gives its address. -/
theorem getClientIP_spec_outside_bareIPv6_witness :
    bareIPv6Peer (peerRequest "::1") ∧
    bareIPv6Peer (peerRequest "2001:db8::1") ∧
    ¬ bareIPv6Peer (peerRequest "[::1]:443") ∧
    ((getClientIP (peerRequest "[::1]:443")).2 ≠ none ↔
      (specSplitFails (peerRequest "[::1]:443") ∨
        ∃ c, specCandidate (peerRequest "[::1]:443") = some c ∧ ParseIP c = [])) :=
  ⟨by decide, by decide, by decide,
    (getClientIP_spec_outside_bareIPv6 (peerRequest "[::1]:443") (by decide)).1⟩

theorem Index_comma_space (a b : List Char) (h : ¬ [',', ' '] <:+: a) :
    Index (a ++ ',' :: ' ' :: b) [',', ' '] = some a.length := by
  induction a with
  | nil => simp [Index, List.isPrefixOf]
  | cons c t ih =>
    have ht : ¬ [',', ' '] <:+: t := fun hi => h (List.IsInfix.trans hi (List.infix_cons (List.infix_refl t)))
    have hp : List.isPrefixOf [',', ' '] (c :: (t ++ ',' :: ' ' :: b)) = false := by
      cases t with
      | nil => simp [List.isPrefixOf]
      | cons d t1 =>
        by_cases hc : c = ','
        · by_cases hd : d = ' '
          · exfalso
            apply h
            subst hc
            subst hd
            exact ⟨[], t1, by simp⟩
          · simp [List.isPrefixOf, hd]
            intro h1 h2
            exact hd h2.symm
        · simp [List.isPrefixOf]
          intro h1
          exact absurd h1.symm hc
    rw [List.cons_append, Index, hp]
    simp [ih ht]

theorem Split_first (first rest : String) (h : ¬ [',', ' '] <:+: first.data) :
    (Split (first ++ ", " ++ rest) ", ").headD "" = first := by
  unfold Split
  rw [if_neg (by decide)]
  have hd : (first ++ ", " ++ rest).data = first.data ++ ',' :: ' ' :: rest.data := by
    simp [String.data_append]
  rw [hd]
  have hl : (first.data ++ ',' :: ' ' :: rest.data).length =
      (first.data.length + rest.data.length + 1) + 1 := by
    simp
    omega
  have hs : (", " : String).data = [',', ' '] := rfl
  rw [hl, hs, genSplit, Index_comma_space _ _ h]
  simp

/-- Claim C5, amended.  For every request whose forwarding header is one entry
followed by a comma and a space and any further text, `getClientIP` returns the
parse of that first entry, whatever follows it and whatever the peer address
is: the address `net.ParseIP` gives for the entry, with an error exactly when
that address is nil. -/
theorem getClientIP_forwarded_first (r : Request) (first rest : String)
    (hh : r.Header.Get "X-Forwarded-For" = first ++ ", " ++ rest)
    (hfirst : ¬ [',', ' '] <:+: first.data) :
    (getClientIP r).1 = ParseIP first ∧
    ((getClientIP r).2 = none ↔ ParseIP first ≠ []) ∧
    ∀ remoteAddr : String, getClientIP { r with RemoteAddr := remoteAddr } = getClientIP r := by
  have hne : r.Header.Get "X-Forwarded-For" ≠ "" := by
    rw [hh]
    intro h0
    have := congrArg String.length h0
    simp [String.length_append] at this
    exact absurd this.1.2 (by decide)
  have key : ∀ r1 : Request, r1.Header = r.Header →
      getClientIP r1 =
        if ParseIP first = [] then ([], some (GoError.errorString "unable to parse address"))
        else (ParseIP first, none) := by
    intro r1 h1
    unfold getClientIP
    simp only [h1, hne, ne_eq, not_false_eq_true, if_true]
    rw [hh, Split_first first rest hfirst]
  have k := key r rfl
  refine ⟨?_, ?_, ?_⟩
  · rw [k]
    by_cases hp : ParseIP first = []
    · simp [hp]
    · simp [hp]
  · rw [k]
    by_cases hp : ParseIP first = []
    · simp [hp]
    · simp [hp]
  · intro remoteAddr
    rw [k]
    exact key _ rfl

/-- Two addresses after a first one, and a peer address that has no part in the
result. -/
theorem getClientIP_forwarded_first_witness :
    (testRequest "120.100.100.0, 10.0.0.1, 10.0.0.2").Header.Get "X-Forwarded-For" =
      "120.100.100.0" ++ ", " ++ "10.0.0.1, 10.0.0.2" ∧
    ¬ [',', ' '] <:+: ("120.100.100.0" : String).data ∧
    (getClientIP (testRequest "120.100.100.0, 10.0.0.1, 10.0.0.2")).1 =
      ParseIP "120.100.100.0" :=
  ⟨by decide, by decide,
    (getClientIP_forwarded_first (testRequest "120.100.100.0, 10.0.0.1, 10.0.0.2")
      "120.100.100.0" "10.0.0.1, 10.0.0.2" (by decide) (by decide)).1⟩

/-- Claim C5 as stated fails.  The header `1.1.1.1,2.2.2.2` holds two
comma-separated addresses, the first of which parses, yet `getClientIP` cuts
only at a comma followed by a space, hands the whole header to `net.ParseIP`
and returns the nil address with an error. -/
theorem getClientIP_comma_only_counterexample :
    commaOnlyRequest.Header.Get "X-Forwarded-For" = "1.1.1.1,2.2.2.2" ∧
    Split "1.1.1.1,2.2.2.2" "," = ["1.1.1.1", "2.2.2.2"] ∧
    ParseIP "1.1.1.1" = [0, 0, 0, 0, 0, 0, 0, 0, 0, 0, 255, 255, 1, 1, 1, 1] ∧
    getClientIP commaOnlyRequest =
      ([], some (GoError.errorString "unable to parse address")) ∧
    ¬ (getClientIP commaOnlyRequest).1 = ParseIP "1.1.1.1" := by
  decide

/-- Claim C6 at a peer address that is an IPv6 literal without port.  The text
`::1` is a valid literal, `net.SplitHostPort` rejects it with `too many colons
in address` and not with `missing port in address`, so `getClientIP` does not
fall back to the peer address and returns the nil address with that error. -/
theorem getClientIP_bare_ipv6 :
    (peerRequest "::1").Header.Get "X-Forwarded-For" = "" ∧
    ParseIP "::1" = IPv6loopback ∧
    SplitHostPort "::1" = .error ⟨"too many colons in address", "::1"⟩ ∧
    getClientIP (peerRequest "::1") =
      ([], some (GoError.addr ⟨"too many colons in address", "::1"⟩)) ∧
    ParseIP "2001:db8::1" = [0x20, 0x01, 0x0d, 0xb8, 0, 0, 0, 0, 0, 0, 0, 0, 0, 0, 0, 1] ∧
    getClientIP (peerRequest "2001:db8::1") =
      ([], some (GoError.addr ⟨"too many colons in address", "2001:db8::1"⟩)) ∧
    getClientIP (peerRequest "[::1]:443") = (IPv6loopback, none) ∧
    getClientIP (peerRequest "127.0.0.1") = (ParseIP "127.0.0.1", none) := by
  decide

theorem isDigit_not_special (c : Char) (h : isDigit c = true) :
    c ≠ '.' ∧ c ≠ ':' ∧ c ≠ '%' := by
  unfold isDigit at h
  simp only [Bool.and_eq_true, decide_eq_true_eq] at h
  refine ⟨?_, ?_, ?_⟩ <;>
  · intro hc
    subst hc
    revert h
    decide

theorem parseIPv4Loop_chars (s : List Char) :
    ∀ (first prevDot : Bool) (val pos digLen : Nat) (fields f : List Nat),
      parseIPv4Loop s first prevDot val pos digLen fields = some f →
        (∀ c ∈ s, isDigit c = true ∨ c = '.') ∧ (pos < 3 → '.' ∈ s) := by
  induction s with
  | nil =>
    intro first prevDot val pos digLen fields f h
    unfold parseIPv4Loop at h
    split at h
    · cases h
    · rename_i hp
      exact ⟨by simp, fun h3 => absurd h3 hp⟩
  | cons c rest ih =>
    intro first prevDot val pos digLen fields f h
    unfold parseIPv4Loop at h
    by_cases hd : isDigit c = true
    · rw [if_pos hd] at h
      split at h
      · cases h
      · simp only [] at h
        split at h
        · cases h
        · obtain ⟨h1, h2⟩ := ih _ _ _ _ _ _ _ h
          refine ⟨?_, fun hp => List.mem_cons_of_mem _ (h2 hp)⟩
          intro x hx
          rcases List.mem_cons.mp hx with rfl | hx1
          · exact Or.inl hd
          · exact h1 x hx1
    · rw [if_neg hd] at h
      by_cases hc : c = '.'
      · rw [if_pos hc] at h
        split at h
        · cases h
        · split at h
          · cases h
          · obtain ⟨h1, _⟩ := ih _ _ _ _ _ _ _ h
            refine ⟨?_, fun _ => by simp [hc]⟩
            intro x hx
            rcases List.mem_cons.mp hx with rfl | hx1
            · exact Or.inr hc
            · exact h1 x hx1
      · rw [if_neg hc] at h
        cases h

theorem find_dot (s : List Char) (h1 : ∀ c ∈ s, isDigit c = true ∨ c = '.') (h2 : '.' ∈ s) :
    s.find? (fun c => decide (c = '.' ∨ c = ':' ∨ c = '%')) = some '.' := by
  induction s with
  | nil => cases h2
  | cons c rest ih =>
    rcases h1 c (List.mem_cons_self _ _) with hd | hc
    · obtain ⟨n1, n2, n3⟩ := isDigit_not_special c hd
      have hrest : '.' ∈ rest := by
        rcases List.mem_cons.mp h2 with h | h
        · exact absurd h.symm n1
        · exact h
      rw [List.find?_cons_of_neg _ (by simp [n1, n2, n3])]
      exact ih (fun x hx => h1 x (List.mem_cons_of_mem _ hx)) hrest
    · subst hc
      simp

/-- The part of claim C6 that holds for IPv4: without forwarding header, a peer
address that is an IPv4 literal without port is parsed as it is and returned
without error. -/
theorem getClientIP_bare_ipv4 (r : Request) (f : List Nat)
    (hh : r.Header.Get "X-Forwarded-For" = "")
    (hv : parseIPv4Fields r.RemoteAddr.data = some f) :
    specCandidate r = some r.RemoteAddr ∧
    ParseIP r.RemoteAddr = v4InV6Lead ++ f ∧
    getClientIP r = (ParseIP r.RemoteAddr, none) := by
  obtain ⟨h1, h2⟩ := parseIPv4Loop_chars _ _ _ _ _ _ _ _ hv
  have hdot : '.' ∈ r.RemoteAddr.data := h2 (by decide)
  have hcolon : ':' ∉ r.RemoteAddr.data := by
    intro hm
    rcases h1 _ hm with hd | hc
    · exact (isDigit_not_special _ hd).2.1 rfl
    · revert hc
      decide
  have hparse : ParseIP r.RemoteAddr = v4InV6Lead ++ f := by
    unfold ParseIP parseAddr16
    rw [find_dot _ h1 hdot, hv]
    rfl
  have hne : v4InV6Lead ++ f ≠ [] := by
    intro h0
    have := congrArg List.length h0
    simp [v4InV6Lead] at this
  have hsplit : SplitHostPort r.RemoteAddr = .error ⟨missingPort, r.RemoteAddr⟩ := by
    unfold SplitHostPort
    simp only [lastIndexByte_none _ _ hcolon]
  have hm : missingPort = "missing port in address" := rfl
  refine ⟨?_, hparse, ?_⟩
  · unfold specCandidate
    have hnp : peerHasNoPort r.RemoteAddr := Or.inl hcolon
    rw [if_neg (by simp [hh]), if_pos hnp]
  · unfold getClientIP
    simp only [hh, ne_eq, not_true_eq_false, if_false, hsplit, hm, if_true]
    simp only [hparse, hne, if_false]

/-- The part of claim C6 on the host:port form: without forwarding header, when
`net.SplitHostPort` splits the peer address, the host part is parsed. -/
theorem getClientIP_host_port (r : Request) (host port : String)
    (hh : r.Header.Get "X-Forwarded-For" = "")
    (hs : SplitHostPort r.RemoteAddr = .ok (host, port)) :
    getClientIP r =
      if ParseIP host = [] then ([], some (GoError.errorString "unable to parse address"))
      else (ParseIP host, none) := by
  unfold getClientIP
  simp only [hh, ne_eq, not_true_eq_false, if_false, hs]

/-! ## The fallback records -/

theorem fetch_snd_loopback (g : Geoip) (r : Request)
    (h : (g.DBHandler (getClientIP r).1 {}).1.Country.ISOCode = "")
    (hl : IP.IsLoopback (getClientIP r).1 = true) :
    (fetchGeoipData g r).2 =
      { (g.DBHandler (getClientIP r).1 {}).1 with
        Country := { (g.DBHandler (getClientIP r).1 {}).1.Country with
          ISOCode := "**", Names := [("en", "Loopback")] },
        City := { (g.DBHandler (getClientIP r).1 {}).1.City with
          Names := [("en", "Loopback")] } } := by
  unfold fetchGeoipData
  simp only [h, hl, if_true]
  rfl

theorem fetch_snd_other (g : Geoip) (r : Request)
    (h : (g.DBHandler (getClientIP r).1 {}).1.Country.ISOCode = "")
    (hl : IP.IsLoopback (getClientIP r).1 = false) :
    (fetchGeoipData g r).2 =
      { (g.DBHandler (getClientIP r).1 {}).1 with
        Country := { (g.DBHandler (getClientIP r).1 {}).1.Country with
          ISOCode := "!!", Names := [("en", "No Country")] },
        City := { (g.DBHandler (getClientIP r).1 {}).1.City with
          Names := [("en", "No City")] } } := by
  unfold fetchGeoipData
  simp only [h, hl, if_true]
  rfl

/-- Claim C4.  When the lookup leaves the country code of the record empty,
`fetchGeoipData` returns country code `**` with the English country and city
names `Loopback` for a loopback client address, and country code `!!` with the
names `No Country` and `No City` for any other; the names are not empty.  When
the lookup yields a country code, the record is returned as the lookup left
it. -/
theorem fetchGeoipData_fallback (g : Geoip) (r : Request) :
    ((g.DBHandler (getClientIP r).1 {}).1.Country.ISOCode = "" →
      (IP.IsLoopback (getClientIP r).1 = true →
        (fetchGeoipData g r).2.Country.ISOCode = "**" ∧
        (fetchGeoipData g r).2.Country.Names.get "en" = "Loopback" ∧
        (fetchGeoipData g r).2.City.Names.get "en" = "Loopback") ∧
      (IP.IsLoopback (getClientIP r).1 = false →
        (fetchGeoipData g r).2.Country.ISOCode = "!!" ∧
        (fetchGeoipData g r).2.Country.Names.get "en" = "No Country" ∧
        (fetchGeoipData g r).2.City.Names.get "en" = "No City") ∧
      (fetchGeoipData g r).2.Country.Names.get "en" ≠ "" ∧
      (fetchGeoipData g r).2.City.Names.get "en" ≠ "") ∧
    ((g.DBHandler (getClientIP r).1 {}).1.Country.ISOCode ≠ "" →
      (fetchGeoipData g r).2 = (g.DBHandler (getClientIP r).1 {}).1) := by
  constructor
  · intro h
    by_cases hl : IP.IsLoopback (getClientIP r).1 = true
    · have e := fetch_snd_loopback g r h hl
      have n1 : (fetchGeoipData g r).2.Country.Names.get "en" = "Loopback" := by rw [e]; rfl
      have n2 : (fetchGeoipData g r).2.City.Names.get "en" = "Loopback" := by rw [e]; rfl
      refine ⟨fun _ => ⟨by rw [e], n1, n2⟩, fun hc => ?_, ?_, ?_⟩
      · rw [hl] at hc
        cases hc
      · rw [n1]
        decide
      · rw [n2]
        decide
    · have hl2 : IP.IsLoopback (getClientIP r).1 = false := by simpa using hl
      have e := fetch_snd_other g r h hl2
      have n1 : (fetchGeoipData g r).2.Country.Names.get "en" = "No Country" := by rw [e]; rfl
      have n2 : (fetchGeoipData g r).2.City.Names.get "en" = "No City" := by rw [e]; rfl
      refine ⟨fun hc => ?_, fun _ => ⟨by rw [e], n1, n2⟩, ?_, ?_⟩
      · rw [hl2] at hc
        cases hc
      · rw [n1]
        decide
      · rw [n2]
        decide
  · intro h
    unfold fetchGeoipData
    simp only [h, if_false]

/-- A loopback address, an address the database does not know, and an address
it knows. -/
theorem fetchGeoipData_fallback_witness :
    (fetchGeoipData testAllowOnly (testRequest "127.0.0.1")).2.Country.ISOCode = "**" ∧
    (fetchGeoipData testAllowOnly (testRequest "10.1.2.3")).2.Country.ISOCode = "!!" ∧
    (fetchGeoipData testAllowOnly (testRequest "35.100.100.0")).2 =
      testCountry "US" "United States" {} :=
  ⟨((fetchGeoipData_fallback testAllowOnly (testRequest "127.0.0.1")).1 (by decide)).1
      (by decide) |>.1,
    ((fetchGeoipData_fallback testAllowOnly (testRequest "10.1.2.3")).1 (by decide)).2.1
      (by decide) |>.1,
    ((fetchGeoipData_fallback testAllowOnly (testRequest "35.100.100.0")).2 (by decide)).trans
      (by decide)⟩

theorem IsLoopback_nil : IP.IsLoopback [] = false := by decide

theorem IPString_nil : IPString [] = "<nil>" := by decide

/-- Claim C8.  When `getClientIP` returns an error, the request is still
evaluated: `fetchGeoipData` goes on with the nil address and, the lookup leaving
no country code for it, returns the record with country code `!!` and the names
`No Country` and `No City`; `ServeHTTP` gives a verdict from that code and the
textual form `<nil>` of the address. -/
theorem ServeHTTP_unresolved (g : Geoip) (r : Request)
    (herr : (getClientIP r).2 ≠ none)
    (hlook : (g.DBHandler [] {}).1.Country.ISOCode = "") :
    (fetchGeoipData g r).1.RequestIP = [] ∧
    (fetchGeoipData g r).2.Country.ISOCode = "!!" ∧
    (fetchGeoipData g r).2.Country.Names.get "en" = "No Country" ∧
    (fetchGeoipData g r).2.City.Names.get "en" = "No City" ∧
    ((ServeHTTP g r).verdict = Verdict.next ∨ (ServeHTTP g r).verdict = Verdict.forbidden) ∧
    ((ServeHTTP g r).verdict = Verdict.next ↔
      (("!!" ∈ g.AllowList.Country ∨ ∃ e ∈ g.AllowList.IP, IPString e = "<nil>") ∨
        (g.AllowList.AllowOnly = false ∧
          ¬ ("!!" ∈ g.BlockList.Country ∨ ∃ e ∈ g.BlockList.IP, IPString e = "<nil>")))) := by
  have hnil := getClientIP_error_nil r herr
  have hrec : (fetchGeoipData g r).2.Country.ISOCode = "!!" ∧
      (fetchGeoipData g r).2.Country.Names.get "en" = "No Country" ∧
      (fetchGeoipData g r).2.City.Names.get "en" = "No City" := by
    have hlook2 : (g.DBHandler (getClientIP r).1 {}).1.Country.ISOCode = "" := by
      rw [hnil]
      exact hlook
    have hl : IP.IsLoopback (getClientIP r).1 = false := by
      rw [hnil]
      exact IsLoopback_nil
    have e := fetch_snd_other g r hlook2 hl
    exact ⟨by rw [e], by rw [e]; rfl, by rw [e]; rfl⟩
  refine ⟨?_, hrec.1, hrec.2.1, hrec.2.2, ?_, ?_⟩
  · rw [fetchGeoipData_fst]
    exact hnil
  · cases (ServeHTTP g r).verdict
    · exact Or.inl rfl
    · exact Or.inr rfl
  · rw [verdict_next_iff]
    unfold allowListed blockListed
    rw [hrec.1, hnil, IPString_nil]

/-- A forwarding header that is no address: the request is denied in allow-only
mode and permitted by a block list that does not name `!!`. -/
theorem ServeHTTP_unresolved_witness :
    (getClientIP (testRequest "unknown")).2 ≠ none ∧
    (testDB [] {}).1.Country.ISOCode = "" ∧
    (fetchGeoipData testAllowOnly (testRequest "unknown")).2.Country.ISOCode = "!!" ∧
    (ServeHTTP testAllowOnly (testRequest "unknown")).verdict = Verdict.forbidden ∧
    (ServeHTTP testBlockList (testRequest "unknown")).verdict = Verdict.next :=
  ⟨by decide, by decide,
    (ServeHTTP_unresolved testAllowOnly (testRequest "unknown") (by decide) (by decide)).2.1,
    by decide,
    (ServeHTTP_unresolved testBlockList (testRequest "unknown") (by decide)
      (by decide)).2.2.2.2.2.mpr (by decide)⟩

/-! ## The configuration is not written -/

/-- Claim C9.  Evaluating a request leaves the configuration as it was: after
`fetchGeoipData`, after `lookupLocation` and when `ServeHTTP` returns, the
block-list countries and addresses, the allow-list countries and addresses, the
`AllowOnly` flag, the database path and the database handle of the receiver
are those from before the call; the receiver differs from the module in
`RequestIP` and `RequestCountry` alone. -/
theorem ServeHTTP_frame (g : Geoip) (r : Request) :
    ((ServeHTTP g r).g.BlockList.Country = g.BlockList.Country ∧
      (ServeHTTP g r).g.BlockList.IP = g.BlockList.IP ∧
      (ServeHTTP g r).g.AllowList.Country = g.AllowList.Country ∧
      (ServeHTTP g r).g.AllowList.IP = g.AllowList.IP ∧
      (ServeHTTP g r).g.AllowList.AllowOnly = g.AllowList.AllowOnly ∧
      (ServeHTTP g r).g.DatabasePath = g.DatabasePath ∧
      (ServeHTTP g r).g.DBHandler = g.DBHandler) ∧
    (ServeHTTP g r).g =
      { g with
        RequestIP := (ServeHTTP g r).g.RequestIP,
        RequestCountry := (ServeHTTP g r).g.RequestCountry } ∧
    lookupLocation g r =
      { g with
        RequestIP := (lookupLocation g r).RequestIP,
        RequestCountry := (lookupLocation g r).RequestCountry } ∧
    (fetchGeoipData g r).1 = { g with RequestIP := (fetchGeoipData g r).1.RequestIP } := by
  rw [ServeHTTP_g, fetchGeoipData_fst, lookupLocation_eq]
  exact ⟨⟨rfl, rfl, rfl, rfl, rfl, rfl, rfl⟩, rfl, rfl, rfl⟩

/-! ## Nil entries in the address lists -/

theorem appendParsedIPs_eq (ips : List IP) (args : List String) :
    appendParsedIPs ips args = ips ++ args.map ParseIP := by
  unfold appendParsedIPs
  induction args generalizing ips with
  | nil => simp
  | cons a t ih => simp [List.foldl_cons, ih]

theorem foldlM_keeps {α β ε : Type} (f : β → α → Except ε β) (P : β → Prop)
    (hkeep : ∀ b a b1, f b a = .ok b1 → P b → P b1) :
    ∀ (l : List α) (b b1 : β), l.foldlM f b = .ok b1 → P b → P b1 := by
  intro l
  induction l with
  | nil =>
    intro b b1 h hb
    cases h
    exact hb
  | cons a t ih =>
    intro b b1 h hb
    rw [List.foldlM_cons] at h
    cases hf : f b a with
    | error e =>
      rw [hf] at h
      cases h
    | ok b2 =>
      rw [hf] at h
      exact ih b2 b1 h (hkeep b a b2 hf hb)

theorem foldlM_gains {α β ε : Type} (f : β → α → Except ε β) (P : β → Prop)
    (hkeep : ∀ b a b1, f b a = .ok b1 → P b → P b1)
    (a0 : α) (hgain : ∀ b b1, f b a0 = .ok b1 → P b1) :
    ∀ (l : List α), a0 ∈ l → ∀ (b b1 : β), l.foldlM f b = .ok b1 → P b1 := by
  intro l
  induction l with
  | nil =>
    intro hm
    cases hm
  | cons a t ih =>
    intro hm b b1 h
    rw [List.foldlM_cons] at h
    cases hf : f b a with
    | error e =>
      rw [hf] at h
      cases h
    | ok b2 =>
      rw [hf] at h
      rcases List.mem_cons.mp hm with rfl | hm1
      · exact foldlM_keeps f P hkeep t b2 b1 h (hgain b b2 hf)
      · exact ih hm1 b2 b1 h

theorem allowListLine_keeps (x : IP) (g : Geoip) (l : Line) (g1 : Geoip)
    (h : allowListLine g l = .ok g1) :
    (x ∈ g.AllowList.IP → x ∈ g1.AllowList.IP) ∧ (x ∈ g.BlockList.IP → x ∈ g1.BlockList.IP) := by
  unfold allowListLine at h
  split at h
  · split at h
    · cases h
    · simp only [] at h
      split at h
      · cases h
      · cases h
        exact ⟨id, id⟩
  · split at h
    · cases h
      exact ⟨id, id⟩
    · split at h
      · cases h
        refine ⟨fun hx => ?_, id⟩
        simp only [appendParsedIPs_eq]
        exact List.mem_append_left _ hx
      · cases h

theorem blockListLine_keeps (x : IP) (g : Geoip) (l : Line) (g1 : Geoip)
    (h : blockListLine g l = .ok g1) :
    (x ∈ g.AllowList.IP → x ∈ g1.AllowList.IP) ∧ (x ∈ g.BlockList.IP → x ∈ g1.BlockList.IP) := by
  unfold blockListLine at h
  split at h
  · cases h
    exact ⟨id, id⟩
  · split at h
    · cases h
      refine ⟨id, fun hx => ?_⟩
      simp only [appendParsedIPs_eq]
      exact List.mem_append_left _ hx
    · cases h

theorem allowListLine_gains (s : String) (g : Geoip) (l : Line) (g1 : Geoip)
    (hv : l.val = "ip") (hs : s ∈ l.args) (h : allowListLine g l = .ok g1) :
    ParseIP s ∈ g1.AllowList.IP := by
  unfold allowListLine at h
  rw [hv] at h
  rw [if_neg (by decide), if_neg (by decide), if_pos rfl] at h
  cases h
  simp only [appendParsedIPs_eq]
  exact List.mem_append_right _ (List.mem_map_of_mem _ hs)

theorem blockListLine_gains (s : String) (g : Geoip) (l : Line) (g1 : Geoip)
    (hv : l.val = "ip") (hs : s ∈ l.args) (h : blockListLine g l = .ok g1) :
    ParseIP s ∈ g1.BlockList.IP := by
  unfold blockListLine at h
  rw [hv] at h
  rw [if_neg (by decide), if_pos rfl] at h
  cases h
  simp only [appendParsedIPs_eq]
  exact List.mem_append_right _ (List.mem_map_of_mem _ hs)

theorem geoipEntry_keeps (x : IP) (g : Geoip) (e : Directive) (g1 : Geoip)
    (h : geoipEntry g e = .ok g1) :
    (x ∈ g.AllowList.IP → x ∈ g1.AllowList.IP) ∧ (x ∈ g.BlockList.IP → x ∈ g1.BlockList.IP) := by
  unfold geoipEntry at h
  split at h
  · exact ⟨foldlM_keeps blockListLine (fun g => x ∈ g.AllowList.IP)
        (fun b a b1 hb => (blockListLine_keeps x b a b1 hb).1) _ _ _ h,
      foldlM_keeps blockListLine (fun g => x ∈ g.BlockList.IP)
        (fun b a b1 hb => (blockListLine_keeps x b a b1 hb).2) _ _ _ h⟩
  · split at h
    · exact ⟨foldlM_keeps allowListLine (fun g => x ∈ g.AllowList.IP)
          (fun b a b1 hb => (allowListLine_keeps x b a b1 hb).1) _ _ _ h,
        foldlM_keeps allowListLine (fun g => x ∈ g.BlockList.IP)
          (fun b a b1 hb => (allowListLine_keeps x b a b1 hb).2) _ _ _ h⟩
    · cases h

theorem geoipSegment_keeps (x : IP) (g : Geoip) (seg : Segment) (g1 : Geoip)
    (h : geoipSegment g seg = .ok g1) :
    (x ∈ g.AllowList.IP → x ∈ g1.AllowList.IP) ∧ (x ∈ g.BlockList.IP → x ∈ g1.BlockList.IP) := by
  unfold geoipSegment at h
  split at h
  · exact ⟨fun hx => foldlM_keeps geoipEntry (fun g => x ∈ g.AllowList.IP)
        (fun b a b1 hb => (geoipEntry_keeps x b a b1 hb).1) _ _ _ h hx,
      fun hx => foldlM_keeps geoipEntry (fun g => x ∈ g.BlockList.IP)
        (fun b a b1 hb => (geoipEntry_keeps x b a b1 hb).2) _ _ _ h hx⟩
  · cases h

/-- An argument of an `ip` line of an `allow_list` block is in the allow-list
addresses of the module as `net.ParseIP` returns it. -/
theorem UnmarshalCaddyfile_allow_ip (g0 g : Geoip) (d : List Segment) (s : String)
    (hu : UnmarshalCaddyfile g0 d = .ok g) (hs : allowListIPArg s d) :
    ParseIP s ∈ g.AllowList.IP := by
  obtain ⟨seg, hseg, e, he, hev, l, hl, hlv, hsl⟩ := hs
  refine foldlM_gains geoipSegment (fun g => ParseIP s ∈ g.AllowList.IP)
    (fun b a b1 hb => (geoipSegment_keeps _ b a b1 hb).1) seg ?_ d hseg g0 g hu
  intro b b1 hb
  unfold geoipSegment at hb
  split at hb
  · refine foldlM_gains geoipEntry (fun g => ParseIP s ∈ g.AllowList.IP)
      (fun b a b1 hb => (geoipEntry_keeps _ b a b1 hb).1) e ?_ seg.block he _ b1 hb
    intro c c1 hc
    unfold geoipEntry at hc
    rw [hev, if_neg (by decide), if_pos rfl] at hc
    exact foldlM_gains allowListLine (fun g => ParseIP s ∈ g.AllowList.IP)
      (fun b a b1 hb => (allowListLine_keeps _ b a b1 hb).1) l
      (fun b b1 hb => allowListLine_gains s b l b1 hlv hsl hb) e.block hl c c1 hc
  · cases hb

/-- An argument of an `ip` line of a `block_list` block is in the block-list
addresses of the module as `net.ParseIP` returns it. -/
theorem UnmarshalCaddyfile_block_ip (g0 g : Geoip) (d : List Segment) (s : String)
    (hu : UnmarshalCaddyfile g0 d = .ok g) (hs : blockListIPArg s d) :
    ParseIP s ∈ g.BlockList.IP := by
  obtain ⟨seg, hseg, e, he, hev, l, hl, hlv, hsl⟩ := hs
  refine foldlM_gains geoipSegment (fun g => ParseIP s ∈ g.BlockList.IP)
    (fun b a b1 hb => (geoipSegment_keeps _ b a b1 hb).2) seg ?_ d hseg g0 g hu
  intro b b1 hb
  unfold geoipSegment at hb
  split at hb
  · refine foldlM_gains geoipEntry (fun g => ParseIP s ∈ g.BlockList.IP)
      (fun b a b1 hb => (geoipEntry_keeps _ b a b1 hb).2) e ?_ seg.block he _ b1 hb
    intro c c1 hc
    unfold geoipEntry at hc
    rw [hev, if_pos rfl] at hc
    exact foldlM_gains blockListLine (fun g => ParseIP s ∈ g.BlockList.IP)
      (fun b a b1 hb => (blockListLine_keeps _ b a b1 hb).2) l
      (fun b b1 hb => blockListLine_gains s b l b1 hlv hsl hb) e.block hl c c1 hc
  · cases hb

/-- Claim C10.  A configured address that is no IP literal is stored as the nil
address, and a client address that fails to parse is the nil address too, so
the two have the same textual form.  For every module that
`UnmarshalCaddyfile` builds and every request on which `getClientIP` returns an
error: when the text is an argument of an `ip` line of the allow list, the
request is permitted, whatever `AllowOnly` is; when it is an argument of an `ip`
line of the block list, the request matches the block list. -/
theorem ServeHTTP_nil_entry (g0 g : Geoip) (d : List Segment) (r : Request) (s : String)
    (hu : UnmarshalCaddyfile g0 d = .ok g)
    (hs : ParseIP s = [])
    (hr : (getClientIP r).2 ≠ none) :
    IPString (ParseIP s) = IPString (getClientIP r).1 ∧
    (allowListIPArg s d → (ServeHTTP g r).verdict = Verdict.next) ∧
    (blockListIPArg s d →
      blockListMatch (lookupLocation g r) = true ∧
      ∃ e ∈ g.BlockList.IP, IPString e = IPString (getClientIP r).1) := by
  have hnil := getClientIP_error_nil r hr
  have hstr : IPString (ParseIP s) = IPString (getClientIP r).1 := by rw [hs, hnil]
  refine ⟨hstr, fun ha => ?_, fun hb => ?_⟩
  · exact (verdict_next_iff g r).mpr
      (Or.inl (Or.inr ⟨ParseIP s, UnmarshalCaddyfile_allow_ip g0 g d s hu ha, hstr⟩))
  · have hm : ∃ e ∈ g.BlockList.IP, IPString e = IPString (getClientIP r).1 :=
      ⟨ParseIP s, UnmarshalCaddyfile_block_ip g0 g d s hu hb, hstr⟩
    exact ⟨(blockListMatch_lookup_iff g r).mpr (Or.inr hm), hm⟩

/-- The allow list holds `10.0.0.0/8` and the block list `localhost`; a request
whose forwarding header is `unknown` is permitted in allow-only mode. -/
theorem ServeHTTP_nil_entry_witness :
    UnmarshalCaddyfile { DBHandler := testDB } invalidEntries = .ok invalidEntriesModule ∧
    ParseIP "10.0.0.0/8" = [] ∧
    (getClientIP (testRequest "unknown")).2 ≠ none ∧
    allowListIPArg "10.0.0.0/8" invalidEntries ∧
    invalidEntriesModule.AllowList.AllowOnly = true ∧
    (ServeHTTP invalidEntriesModule (testRequest "unknown")).verdict = Verdict.next :=
  ⟨rfl, by decide, by decide,
    ⟨_, List.mem_cons_self _ _, _, List.mem_cons_of_mem _ (List.mem_cons_self _ _), rfl,
      _, List.mem_cons_self _ _, rfl, List.mem_cons_self _ _⟩,
    rfl,
    (ServeHTTP_nil_entry { DBHandler := testDB } invalidEntriesModule invalidEntries
      (testRequest "unknown") "10.0.0.0/8" rfl (by decide) (by decide)).2.1
      ⟨_, List.mem_cons_self _ _, _, List.mem_cons_of_mem _ (List.mem_cons_self _ _), rfl,
        _, List.mem_cons_self _ _, rfl, List.mem_cons_self _ _⟩⟩

end CaddyGeoip
